import Mathlib

/-!
# Verification of the console renderer (Renderer) against its specification

This development shallowly embeds the renderer implementation found in the
repository (the `Renderer` class: frame orchestration, invalidation triggers,
double-width glyph deduplication, attribute-run decoding, font queries and
teardown) and proves or refutes the specification claims about it.

Machine integers: the source uses SHORT/size_t coordinates; coordinates are
modelled as `Int` (no overflow occurs in the ranges the claims quantify over)
and counts as `Nat`.  HRESULTs are modelled as `Int` with `SUCCEEDED hr`
meaning `0 ≤ hr`, `S_OK = 0`, `S_FALSE = 1`.

Calls made to a rendering engine ("Backend") are recorded as events, so each
renderer operation is a function from its inputs and the mutable renderer
state to an event trace plus the updated state.
-/

namespace ConsoleRender

/-- HRESULT success code S_OK (= 0). -/
def S_OK : Int := 0

/-- HRESULT ambiguous-success code S_FALSE (= 1). -/
def S_FALSE : Int := 1

/-- HRESULT failure code E_FAIL (0x80004005 as a signed 32-bit value). -/
def E_FAIL : Int := -2147467259

/-- The SUCCEEDED macro: an HRESULT succeeds when it is non-negative. -/
def SUCCEEDED (hr : Int) : Bool := 0 ≤ hr

/-- A COORD: an X/Y pair of (SHORT) coordinates. -/
structure Coord where
  x : Int
  y : Int
deriving DecidableEq, Repr, Inhabited

/-- A SMALL_RECT: an inclusive axis-aligned rectangle in cell coordinates. -/
structure SmallRect where
  left : Int
  top : Int
  right : Int
  bottom : Int
deriving DecidableEq, Repr, Inhabited

/-- Modelled from the spec: Viewport::ConvertToOrigin for a point.  Buffer
coordinates are translated to viewport-local by subtracting the viewport
origin (the Viewport helper class is not under src/). -/
def convertToOrigin (view : SmallRect) (c : Coord) : Coord :=
  ⟨c.x - view.left, c.y - view.top⟩

/-- Modelled from the spec: Viewport::ConvertToOrigin for a rectangle. -/
def convertRectToOrigin (view : SmallRect) (r : SmallRect) : SmallRect :=
  ⟨r.left - view.left, r.top - view.top, r.right - view.left, r.bottom - view.top⟩

/-- Modelled from the spec: Viewport::ConvertFromOrigin for a rectangle
(viewport-local back to buffer coordinates). -/
def convertRectFromOrigin (view : SmallRect) (r : SmallRect) : SmallRect :=
  ⟨r.left + view.left, r.top + view.top, r.right + view.left, r.bottom + view.top⟩

/-- Modelled from the spec: Viewport::IsInBounds — the point lies inside the
inclusive viewport rectangle. -/
def isInBounds (view : SmallRect) (c : Coord) : Bool :=
  view.left ≤ c.x && c.x ≤ view.right && view.top ≤ c.y && c.y ≤ view.bottom

/-- Modelled from the spec: Viewport::TrimToViewport — clamp the rectangle to
the viewport; the source returns whether a non-empty region remains, here the
clamped rectangle is returned when non-empty. -/
def trimToViewport (view : SmallRect) (r : SmallRect) : Option SmallRect :=
  let t : SmallRect := ⟨max r.left view.left, max r.top view.top,
                        min r.right view.right, min r.bottom view.bottom⟩
  if t.left ≤ t.right ∧ t.top ≤ t.bottom then some t else none

/-- DBCS width class of one cell: single width, leading (left) half of a
full-width glyph, or trailing (right) half. -/
inductive DbcsA where
  | single
  | leading
  | trailing
deriving DecidableEq, Repr, Inhabited

/-- One grid cell: its glyph (UTF-16 unit, as a number) and its DBCS width
class.  The style lives in the row's attribute runs. -/
structure Cell where
  glyph : Nat
  dbcs : DbcsA
deriving DecidableEq, Repr, Inhabited

/-- One text-buffer row: its cells (CharRow), the forced-wrap flag, the
measured right edge, and its run-length-encoded attribute row (pairs of an
opaque attribute id and the run length). -/
structure RowT where
  cells : List Cell
  wrapForced : Bool
  measureRight : Int
  attrRuns : List (Nat × Nat)
deriving Inhabited

/-- One IME conversion area (ConversionAreaInfo): hidden flag, the view
rectangle of the conversion-area window, its placement relative to the
console view, and its own small text buffer. -/
structure ImeArea where
  hidden : Bool
  viewCaWindow : SmallRect
  coordConView : Coord
  buffer : List RowT
deriving Inhabited

/-- The IRenderData interface as consumed by the renderer: viewport, text
buffer, selection, cursor, grid-line permission, IME areas, font flavor and
the ambient default brush attribute.  The raster-font codepage round trip
(WideCharToMultiByte/MultiByteToWideChar, an OS service) is abstracted as the
opaque `remap` function returning none on conversion failure. -/
structure RenderData where
  viewport : SmallRect
  buffer : List RowT
  bufWidth : Int
  bufHeight : Int
  selectionRects : List SmallRect
  cursorPos : Coord
  cursorVisible : Bool
  cursorDoubleWidth : Bool
  gridLineAllowed : Bool
  imeAreas : List ImeArea
  isTrueType : Bool
  remap : List Nat → Option (List Nat)
  defaultAttr : Nat
deriving Inhabited

/-- The mutable diff state owned by the Renderer: the previously observed
viewport rectangle and the previously rendered selection rectangles. -/
structure RState where
  srViewportPrevious : SmallRect
  previousSelection : List SmallRect
deriving Inhabited

/-- The outcomes one engine (Backend) produces for the calls the renderer
makes during a frame and teardown: its reported dirty rectangle and the
HRESULT of each fallible call, plus its answer to PrepareForTeardown. -/
structure EngineBehavior where
  dirtyRect : SmallRect
  startPaint : Int
  updateBrushes : Int
  scrollFrame : Int
  paintBackground : Int
  updateTitle : Int
  present : Int
  prepareTeardown : Int
  prepareWantsRepaint : Bool
deriving DecidableEq, Repr, Inhabited

/-- One call made by the renderer to an engine (the Backend capability
contract), with the arguments the claims inspect. -/
inductive ECall where
  | updateViewport (r : SmallRect)
  | invalidateScroll (d : Coord)
  | invalidateSelection (rs : List SmallRect)
  | invalidateCursor (c : Coord)
  | startPaint
  | endPaint
  | present
  | updateBrushes (attr : Nat) (includeBackground : Bool)
  | scrollFrame
  | paintBackground
  | paintBufferLine (text : List Nat) (widths : List Nat) (len : Nat)
      (target : Coord) (trimLeft : Bool) (wrapped : Bool)
  | paintGridLines (len : Nat) (target : Coord)
  | paintSelection (r : SmallRect)
  | paintCursor (c : Coord) (isDouble : Bool)
  | updateTitle
  | prepareForTeardown
deriving DecidableEq, Repr, Inhabited

/-- A trace event: acquiring or releasing the shared console lock, or a call
to engine number `i`. -/
inductive Ev where
  | lock
  | unlock
  | call (i : Nat) (c : ECall)
deriving DecidableEq, Repr, Inhabited

/-- Modelled from the spec: ATTR_ROW::GetAttrByColumn (the attribute-row class
is not under src/) — an AttributeRun is a maximal run of consecutive columns
sharing one resolved style, queried lazily by starting column; the query
returns the style and the length for which it still applies from that column
on.  Out-of-range columns yield an applicable length of zero. -/
def getAttrByColumn : List (Nat × Nat) → Nat → Nat × Nat
  | [], _ => (0, 0)
  | (a, n) :: rest, c => if c < n then (a, n - c) else getAttrByColumn rest (c - n)

/-- Total number of columns covered by an attribute-run list. -/
def runsTotal (runs : List (Nat × Nat)) : Nat := (runs.map Prod.snd).sum

/-- Index of the maximal attribute run containing a column (for stating that a
segment never crosses a resolved-style boundary). -/
def runOfColumn : List (Nat × Nat) → Nat → Nat
  | [], _ => 0
  | (_, n) :: rest, c => if c < n then 0 else runOfColumn rest (c - n) + 1

/-- One text segment emitted by the attribute-run decoding loop of
_PaintBufferOutputColorHelper: its attribute, the number of characters written
before it (so its starting column is iFirstAttr + written and its draw target
is coordTarget.X + written) and its length. -/
structure Seg where
  attr : Nat
  written : Nat
  len : Nat
deriving DecidableEq, Repr, Inhabited

/-- One iteration artifact of the color-helper loop: the brush update issued
at the top of every iteration, or an emitted segment. -/
inductive ColorItem where
  | brush (attr : Nat)
  | seg (s : Seg)
deriving DecidableEq, Repr, Inhabited

/-- The do/while loop of Renderer::_PaintBufferOutputColorHelper.  Each
iteration queries the attribute applying at column iFirstAttr + cchWritten,
updates the brushes, clips the applicable length against the remaining
requested width (cchSegment), stops on an empty segment, and otherwise emits
the segment and advances; the loop repeats while characters remain and the
cell iterator has not reached the row end (itLen cells remain). -/
def colorLoop (runs : List (Nat × Nat)) (iFirstAttr cchLine : Nat) (cchWritten : Nat)
    (itLen : Nat) : List ColorItem :=
  let qr := getAttrByColumn runs (iFirstAttr + cchWritten)
  let cchSegment := min (cchLine - cchWritten) qr.2
  if _h : cchSegment = 0 then
    [ColorItem.brush qr.1]
  else
    ColorItem.brush qr.1 :: ColorItem.seg ⟨qr.1, cchWritten, cchSegment⟩ ::
      (if _h2 : cchWritten + cchSegment < cchLine ∧ cchSegment < itLen then
        colorLoop runs iFirstAttr cchLine (cchWritten + cchSegment) (itLen - cchSegment)
      else [])
termination_by cchLine - cchWritten
decreasing_by unfold_let cchSegment qr at _h _h2; omega

/-- The segments emitted by the color-helper loop for one requested span. -/
def colorSegs (runs : List (Nat × Nat)) (iFirstAttr cchLine itLen : Nat) : List Seg :=
  (colorLoop runs iFirstAttr cchLine 0 itLen).filterMap (fun item =>
    match item with
    | ColorItem.brush _ => none
    | ColorItem.seg s => some s)

/-- The body of the copy loop of _PaintBufferOutputDoubleByteHelper for every
position after the first: trailing cells are skipped; leading and single
cells have their character copied with width 2 (leading) or 1 (single). -/
def dbcsStrip (pairs : List (Nat × Cell)) : List (Nat × Nat) :=
  pairs.filterMap (fun gc =>
    if gc.2.dbcs = DbcsA.trailing then none
    else some (gc.1, if gc.2.dbcs = DbcsA.leading then 2 else 1))

/-- Renderer::_PaintBufferOutputDoubleByteHelper, on the (character, cell)
pairs it walks: returns the deduplicated (character, width) segment, the
possibly-adjusted draw target and the trim-left flag.  The iLine = 0 branch
of the source loop is the head case here: a trailing first cell is copied
with width 2, the target is moved one column left and trim-left is set;
every later trailing cell is skipped. -/
def doubleByteHelper (pairs : List (Nat × Cell)) (target : Coord) :
    List (Nat × Nat) × Coord × Bool :=
  match pairs with
  | [] => ([], target, false)
  | (g, c) :: rest =>
    if c.dbcs = DbcsA.trailing then
      ((g, 2) :: dbcsStrip rest, ⟨target.x - 1, target.y⟩, true)
    else
      (dbcsStrip ((g, c) :: rest), target, false)

/-- The PaintBufferLine call issued at the end of the double-byte helper:
text and widths from the deduplicated segment, length min(cchSegment,
cchLine), the adjustable target and the trim-left flag.  The walked pairs
are the first cchLine characters zipped with the remaining row cells (the
source loop is bounded by both cchLine and the row-end iterator). -/
def doubleByteCall (text : List Nat) (cells : List Cell) (cchLine : Nat) (target : Coord)
    (wrapped : Bool) : ECall :=
  let r := doubleByteHelper ((text.take cchLine).zip cells) target
  ECall.paintBufferLine (r.1.map Prod.fst) (r.1.map Prod.snd) (min r.1.length cchLine)
    r.2.1 r.2.2 wrapped

/-- The engine calls produced for one color-loop item: a brush update, or a
segment draw (via the double-byte helper) followed, when grid-line drawing is
allowed, by a grid-line draw over the identical column span. -/
def itemCalls (gridAllowed : Bool) (text : List Nat) (cells : List Cell) (target : Coord)
    (wrapped : Bool) : ColorItem → List ECall
  | ColorItem.brush a => [ECall.updateBrushes a false]
  | ColorItem.seg s =>
    let segTarget : Coord := ⟨target.x + s.written, target.y⟩
    doubleByteCall (text.drop s.written) (cells.drop s.written) s.len segTarget wrapped ::
      (if gridAllowed then [ECall.paintGridLines s.len segTarget] else [])

/-- Renderer::_PaintBufferOutputColorHelper as an engine-call trace. -/
def colorHelperCalls (gridAllowed : Bool) (runs : List (Nat × Nat)) (text : List Nat)
    (cells : List Cell) (iFirstAttr cchLine : Nat) (target : Coord) (wrapped : Bool) :
    List ECall :=
  (colorLoop runs iFirstAttr cchLine 0 cells.length).flatMap
    (itemCalls gridAllowed text cells target wrapped)

/-- Renderer::_PaintBufferOutputRasterFontHelper: with a TrueType font the
text passes through unchanged; otherwise it makes the codepage round trip
(abstracted as RenderData.remap), falling back to the original text when any
conversion step fails. -/
def rasterFontHelperCalls (d : RenderData) (row : RowT) (text : List Nat) (cells : List Cell)
    (cchLine iFirstAttr : Nat) (target : Coord) (wrapped : Bool) : List ECall :=
  let pwsData := if d.isTrueType then text else (d.remap (text.take cchLine)).getD text
  colorHelperCalls d.gridLineAllowed row.attrRuns pwsData cells iFirstAttr cchLine target wrapped

/-- Inclusive range of Int values from a to b. -/
def intRange (a b : Int) : List Int :=
  (List.range (b + 1 - a).toNat).map (fun k => a + k)

/-- Drop a (non-negative) Int prefix length from a list. -/
def listDropInt {α : Type} (l : List α) (i : Int) : List α := l.drop i.toNat

/-- Modelled from the spec: TextBuffer::GetRowByOffset (the text buffer class
is not under src/) — the text grid accessor returning the row at an offset. -/
def rowAt (buffer : List RowT) (i : Int) : RowT := buffer.getD i.toNat default

/-- Renderer::_PaintBufferOutput: convert the engine's dirty rectangle out of
origin space, clamp it to the buffer bounds and then to the viewport, and for
every row of the result with a non-empty requested span run the raster-font /
color / double-byte helper cascade. -/
def paintBufferOutputCalls (d : RenderData) (b : EngineBehavior) : List ECall :=
  let view := d.viewport
  let srD0 := convertRectFromOrigin view b.dirtyRect
  let srD1 : SmallRect := ⟨max srD0.left 0, max srD0.top 0,
                           min srD0.right (d.bufWidth - 1), min srD0.bottom (d.bufHeight - 1)⟩
  let srD : SmallRect := ⟨max srD1.left view.left, max srD1.top view.top,
                          min srD1.right view.right, min srD1.bottom view.bottom⟩
  (intRange srD.top srD.bottom).flatMap (fun iRow =>
    let row := rowAt d.buffer iRow
    let iLeft := srD.left
    let iRight := srD.right + 1
    if iRight > iLeft then
      let cells := listDropInt row.cells iLeft
      let text := listDropInt (row.cells.map Cell.glyph) iLeft
      let cchLine := (iRight - iLeft).toNat
      let target : Coord := ⟨iLeft - view.left, iRow - view.top⟩
      let wrapped := row.wrapForced && (iRight == row.measureRight)
      rasterFontHelperCalls d row text cells cchLine iLeft.toNat target wrapped
    else [])

/-- Renderer::_PaintIme for one conversion area: place the area relative to
the console view, widen the engine dirty rectangle (exclusive correction),
trim to the area, and draw each covered row of the area's own buffer. -/
def paintImeCalls (d : RenderData) (b : EngineBehavior) (area : ImeArea) : List ECall :=
  if area.hidden then []
  else
    match trimToViewport
        ⟨area.viewCaWindow.left + area.coordConView.x,
         area.viewCaWindow.top + area.coordConView.y,
         area.viewCaWindow.right + area.coordConView.x,
         area.viewCaWindow.bottom + area.coordConView.y⟩
        ⟨b.dirtyRect.left, b.dirtyRect.top, b.dirtyRect.right + 1, b.dirtyRect.bottom + 1⟩ with
    | none => []
    | some viewDirty =>
      (intRange viewDirty.top (viewDirty.bottom - 1)).flatMap (fun iRow =>
        let row := rowAt area.buffer (iRow - area.coordConView.y)
        let idx := viewDirty.left - area.coordConView.x
        let cells := listDropInt row.cells idx
        let text := listDropInt (row.cells.map Cell.glyph) idx
        let cchLine := (viewDirty.right - viewDirty.left).toNat
        let target : Coord := ⟨viewDirty.left, iRow⟩
        rasterFontHelperCalls d row text cells cchLine idx.toNat target false)

/-- Renderer::_PaintImeCompositionString: paint every conversion area. -/
def paintImeCompositionCalls (d : RenderData) (b : EngineBehavior) : List ECall :=
  d.imeAreas.flatMap (paintImeCalls d b)

/-- Renderer::_GetSelectionRects: the data-provided selection rectangles,
origin-adjusted to the viewport, with the temporary right/bottom widening the
source applies. -/
def getSelectionRects (d : RenderData) : List SmallRect :=
  d.selectionRects.map (fun r =>
    let r2 := convertRectToOrigin d.viewport r
    ⟨r2.left, r2.top, r2.right + 1, r2.bottom + 1⟩)

/-- Renderer::_PaintSelection: every selection rectangle that survives
trimming to the engine's dirty rectangle is drawn. -/
def paintSelectionCalls (d : RenderData) (b : EngineBehavior) : List ECall :=
  (getSelectionRects d).filterMap (fun r =>
    (trimToViewport b.dirtyRect r).map (fun rr => ECall.paintSelection rr))

/-- Renderer::_PaintCursor: when visible, draw the cursor at its
viewport-local position. -/
def paintCursorCalls (d : RenderData) : List ECall :=
  if d.cursorVisible then
    [ECall.paintCursor (convertToOrigin d.viewport d.cursorPos) d.cursorDoubleWidth]
  else []

/-- Renderer::_CheckViewportAndScroll: compute the delta between the stored
previous viewport and the current one, send every engine the new viewport and
that delta (unconditionally), store the new rectangle, and report whether the
delta was non-zero. -/
def checkViewportAndScroll (d : RenderData) (n : Nat) (st : RState) :
    List (Nat × ECall) × RState × Bool :=
  let srOld := st.srViewportPrevious
  let srNew := d.viewport
  let delta : Coord := ⟨srOld.left - srNew.left, srOld.top - srNew.top⟩
  ((List.range n).flatMap (fun j =>
     [(j, ECall.updateViewport srNew), (j, ECall.invalidateScroll delta)]),
   { st with srViewportPrevious := srNew },
   delta.x != 0 || delta.y != 0)

/-- Renderer::TriggerScroll (no-argument form): check the viewport and notify
the paint scheduler only when something scrolled (third component). -/
def triggerScroll (d : RenderData) (n : Nat) (st : RState) :
    List (Nat × ECall) × RState × Bool :=
  checkViewportAndScroll d n st

/-- Renderer::TriggerSelection: invalidate on every engine first the
previously rendered selection rectangles and then the newly computed ones,
then store the new rectangles as previousSelection. -/
def triggerSelection (d : RenderData) (n : Nat) (st : RState) :
    List (Nat × ECall) × RState :=
  let rects := getSelectionRects d
  ((List.range n).flatMap (fun j =>
     [(j, ECall.invalidateSelection st.previousSelection),
      (j, ECall.invalidateSelection rects)]),
   { st with previousSelection := rects })

/-- The engine loop of Renderer::TriggerRedrawCursor, iterating over the
remaining engine count: the single updateCoord variable is shared across the
loop, so with a double-width cursor its increment carries over from one
engine to the next. -/
def redrawCursorLoop (isDouble : Bool) : Nat → Nat → Coord → List (Nat × ECall)
  | 0, _, _ => []
  | k + 1, j, c =>
    if isDouble then
      (j, ECall.invalidateCursor c) :: (j, ECall.invalidateCursor ⟨c.x + 1, c.y⟩) ::
        redrawCursorLoop isDouble k (j + 1) ⟨c.x + 1, c.y⟩
    else
      (j, ECall.invalidateCursor c) :: redrawCursorLoop isDouble k (j + 1) c

/-- Renderer::TriggerRedrawCursor: clip the cursor position to the viewport;
when in bounds, convert to viewport-local coordinates and run the engine
loop. -/
def triggerRedrawCursor (d : RenderData) (n : Nat) (coord : Coord) : List (Nat × ECall) :=
  if isInBounds d.viewport coord then
    redrawCursorLoop d.cursorDoubleWidth n 0 (convertToOrigin d.viewport coord)
  else []

/-- Renderer::_PaintFrameForEngine: lock the console, run the viewport/scroll
check, start the frame (bailing out on failure or on the S_FALSE nothing-to-
paint answer), then under the lock update brushes, perform scrolling, paint
background, text, IME, selection, cursor and title, end the frame, release
the lock and only then present.  Fallible steps short-circuit exactly as the
RETURN_IF_FAILED macros in the source do, with the end-paint and unlock scope
guards firing on every exit path past their creation. -/
def paintFrameForEngine (d : RenderData) (bs : List EngineBehavior) (st : RState) (i : Nat) :
    List Ev × Int × RState :=
  if SUCCEEDED (bs.getD i default).startPaint = false then
    (Ev.lock :: (checkViewportAndScroll d bs.length st).1.map (fun p => Ev.call p.1 p.2) ++
       [Ev.call i ECall.startPaint, Ev.unlock],
     (bs.getD i default).startPaint, (checkViewportAndScroll d bs.length st).2.1)
  else if (bs.getD i default).startPaint = S_FALSE then
    (Ev.lock :: (checkViewportAndScroll d bs.length st).1.map (fun p => Ev.call p.1 p.2) ++
       [Ev.call i ECall.startPaint, Ev.unlock],
     S_OK, (checkViewportAndScroll d bs.length st).2.1)
  else if SUCCEEDED (bs.getD i default).updateBrushes = false then
    (Ev.lock :: (checkViewportAndScroll d bs.length st).1.map (fun p => Ev.call p.1 p.2) ++
       [Ev.call i ECall.startPaint, Ev.call i (ECall.updateBrushes d.defaultAttr true),
        Ev.call i ECall.endPaint, Ev.unlock],
     (bs.getD i default).updateBrushes, (checkViewportAndScroll d bs.length st).2.1)
  else if SUCCEEDED (bs.getD i default).scrollFrame = false then
    (Ev.lock :: (checkViewportAndScroll d bs.length st).1.map (fun p => Ev.call p.1 p.2) ++
       [Ev.call i ECall.startPaint, Ev.call i (ECall.updateBrushes d.defaultAttr true),
        Ev.call i ECall.scrollFrame, Ev.call i ECall.endPaint, Ev.unlock],
     (bs.getD i default).scrollFrame, (checkViewportAndScroll d bs.length st).2.1)
  else if SUCCEEDED (bs.getD i default).paintBackground = false then
    (Ev.lock :: (checkViewportAndScroll d bs.length st).1.map (fun p => Ev.call p.1 p.2) ++
       [Ev.call i ECall.startPaint, Ev.call i (ECall.updateBrushes d.defaultAttr true),
        Ev.call i ECall.scrollFrame, Ev.call i ECall.paintBackground,
        Ev.call i ECall.endPaint, Ev.unlock],
     (bs.getD i default).paintBackground, (checkViewportAndScroll d bs.length st).2.1)
  else if SUCCEEDED (bs.getD i default).updateTitle = false then
    (Ev.lock :: (checkViewportAndScroll d bs.length st).1.map (fun p => Ev.call p.1 p.2) ++
       [Ev.call i ECall.startPaint, Ev.call i (ECall.updateBrushes d.defaultAttr true),
        Ev.call i ECall.scrollFrame, Ev.call i ECall.paintBackground] ++
       ((paintBufferOutputCalls d (bs.getD i default) ++
         paintImeCompositionCalls d (bs.getD i default) ++
         paintSelectionCalls d (bs.getD i default) ++
         paintCursorCalls d).map (Ev.call i)) ++
       [Ev.call i ECall.updateTitle, Ev.call i ECall.endPaint, Ev.unlock],
     (bs.getD i default).updateTitle, (checkViewportAndScroll d bs.length st).2.1)
  else
    (Ev.lock :: (checkViewportAndScroll d bs.length st).1.map (fun p => Ev.call p.1 p.2) ++
       [Ev.call i ECall.startPaint, Ev.call i (ECall.updateBrushes d.defaultAttr true),
        Ev.call i ECall.scrollFrame, Ev.call i ECall.paintBackground] ++
       ((paintBufferOutputCalls d (bs.getD i default) ++
         paintImeCompositionCalls d (bs.getD i default) ++
         paintSelectionCalls d (bs.getD i default) ++
         paintCursorCalls d).map (Ev.call i)) ++
       [Ev.call i ECall.updateTitle, Ev.call i ECall.endPaint, Ev.unlock,
        Ev.call i ECall.present],
     if SUCCEEDED (bs.getD i default).present = false then (bs.getD i default).present
     else S_OK,
     (checkViewportAndScroll d bs.length st).2.1)

/-- The engine loop of Renderer::PaintFrame, iterating over the remaining
engine count starting at engine i: every engine gets its frame, whatever the
previous results were (they are only logged). -/
def paintFrameLoop (d : RenderData) (bs : List EngineBehavior) :
    Nat → Nat → RState → List Ev × RState
  | 0, _, st => ([], st)
  | k + 1, i, st =>
    let fr := paintFrameForEngine d bs st i
    let rest := paintFrameLoop d bs k (i + 1) fr.2.2
    (fr.1 ++ rest.1, rest.2)

/-- Renderer::PaintFrame: run the per-engine frame for every attached engine
in order and unconditionally return S_OK. -/
def paintFrame (d : RenderData) (bs : List EngineBehavior) (st : RState) :
    List Ev × RState × Int :=
  let r := paintFrameLoop d bs bs.length 0 st
  (r.1, r.2, S_OK)

/-- The two states of the paint scheduler. -/
inductive SchedState where
  | disabled
  | enabled
deriving DecidableEq, Repr, Inhabited

/-- Modelled from the spec: RenderThread::WaitForPaintCompletionAndDisable
(the paint-scheduler class is not under src/) — waits out any in-flight paint
and forces the scheduler to Disabled. -/
def waitForPaintCompletionAndDisable (_s : SchedState) : SchedState :=
  SchedState.disabled

/-- The engine loop of Renderer::TriggerTeardown: each engine receives one
PrepareForTeardown call; when that call succeeds and the engine asked for a
final repaint, one frame is run for it on the calling thread. -/
def teardownLoop (d : RenderData) (bs : List EngineBehavior) :
    Nat → Nat → RState → List Ev × RState
  | 0, _, st => ([], st)
  | k + 1, i, st =>
    let b := bs.getD i default
    if SUCCEEDED b.prepareTeardown && b.prepareWantsRepaint then
      let fr := paintFrameForEngine d bs st i
      let rest := teardownLoop d bs k (i + 1) fr.2.2
      (Ev.call i ECall.prepareForTeardown :: fr.1 ++ rest.1, rest.2)
    else
      let rest := teardownLoop d bs k (i + 1) st
      (Ev.call i ECall.prepareForTeardown :: rest.1, rest.2)

/-- Renderer::TriggerTeardown: drain and disable the paint scheduler, then
walk the engines doing one final synchronous paint wherever requested. -/
def triggerTeardown (d : RenderData) (bs : List EngineBehavior) (st : RState)
    (s : SchedState) : List Ev × RState × SchedState :=
  let s1 := waitForPaintCompletionAndDisable s
  let r := teardownLoop d bs bs.length 0 st
  (r.1, r.2, s1)

/-- The outcomes one engine produces for the font/size query operations,
including what it writes through each out-parameter (none = leaves the
caller's value untouched). -/
structure FontEngine where
  proposedFontHr : Int
  proposedFontWrite : Option Nat
  fontSizeHr : Int
  fontSizeWrite : Option Coord
  glyphWideHr : Int
  glyphWideWrite : Option Bool
deriving DecidableEq, Repr, Inhabited

/-- The engine loop of Renderer::GetProposedFont: each engine may write the
FontInfo out-parameter; the first S_OK result is returned; anything else
(S_FALSE included) keeps looking; E_FAIL when the loop runs out. -/
def getProposedFontLoop : List FontEngine → Nat → Int × Nat
  | [], fi => (E_FAIL, fi)
  | e :: rest, fi =>
    let fi2 := e.proposedFontWrite.getD fi
    if e.proposedFontHr = S_OK then (S_OK, fi2) else getProposedFontLoop rest fi2

/-- Renderer::GetProposedFont: E_FAIL with no engines attached, otherwise the
engine loop. -/
def getProposedFont (es : List FontEngine) (fi : Nat) : Int × Nat :=
  if es.length < 1 then (E_FAIL, fi) else getProposedFontLoop es fi

/-- The engine loop of Renderer::GetFontSize over the fontSize variable. -/
def getFontSizeLoop : List FontEngine → Coord → Coord
  | [], sz => sz
  | e :: rest, sz =>
    let sz2 := e.fontSizeWrite.getD sz
    if e.fontSizeHr = S_OK then sz2 else getFontSizeLoop rest sz2

/-- Renderer::GetFontSize: starts from the 1-by-1 placeholder, returns the
first S_OK answer, and with no unambiguous success returns whatever the
variable holds — it has no failure channel. -/
def getFontSize (es : List FontEngine) : Coord := getFontSizeLoop es ⟨1, 1⟩

/-- The engine loop of Renderer::IsGlyphWideByFont over fIsFullWidth. -/
def isGlyphWideByFontLoop : List FontEngine → Bool → Bool
  | [], w => w
  | e :: rest, w =>
    let w2 := e.glyphWideWrite.getD w
    if e.glyphWideHr = S_OK then w2 else isGlyphWideByFontLoop rest w2

/-- Renderer::IsGlyphWideByFont: starts from false, returns the first S_OK
answer, and with no unambiguous success returns the accumulated variable —
it has no failure channel either. -/
def isGlyphWideByFont (es : List FontEngine) : Bool := isGlyphWideByFontLoop es false

/-! ## Helper predicates and concrete sample inputs used by the theorems -/

/-- Membership of a cell position in an inclusive rectangle. -/
def inRect (r : SmallRect) (p : Coord) : Bool :=
  r.left ≤ p.x && p.x ≤ r.right && r.top ≤ p.y && p.y ≤ r.bottom

/-- Membership of a cell position in the union of a rectangle list. -/
def inRects (rs : List SmallRect) (p : Coord) : Bool :=
  rs.any (fun r => inRect r p)

/-- Whether one engine call invalidates the given cell as part of a selection
invalidation. -/
def selHit (c : ECall) (p : Coord) : Bool :=
  match c with
  | ECall.invalidateSelection rs => inRects rs p
  | _ => false

/-- The cells covered by the selection invalidations a trigger sent to engine
j: any invalidate-selection call to j containing the cell. -/
def selectionCovered (evs : List (Nat × ECall)) (j : Nat) (p : Coord) : Bool :=
  (evs.filter (fun q => q.1 == j)).any (fun q => selHit q.2 p)

/-- The engine indices receiving a begin-frame (StartPaint) call, in trace
order: one entry per per-engine frame run. -/
def startIdxs (tr : List Ev) : List Nat :=
  tr.filterMap (fun e =>
    match e with
    | Ev.call j ECall.startPaint => some j
    | _ => none)

/-- Whether an engine's outcomes let its frame reach the presentation step:
begin-frame succeeded and was not the nothing-to-paint answer, and every
frame-fatal step succeeded. -/
def reachesPresent (b : EngineBehavior) : Bool :=
  SUCCEEDED b.startPaint && !(b.startPaint == S_FALSE) && SUCCEEDED b.updateBrushes &&
  SUCCEEDED b.scrollFrame && SUCCEEDED b.paintBackground && SUCCEEDED b.updateTitle

/-- Engine calls that are not one of the frame-structure markers (begin
frame, present, prepare-for-teardown); the viewport/scroll fan-out and the
paint-step helpers only ever emit such calls. -/
def nonMarker (c : ECall) : Bool :=
  match c with
  | ECall.startPaint => false
  | ECall.present => false
  | ECall.prepareForTeardown => false
  | _ => true

/-- A concrete 80-by-24 viewport rectangle. -/
def rect0 : SmallRect := ⟨0, 0, 79, 23⟩

/-- A concrete render-data sample: 80-by-24 grid, double-width cursor at
(5, 5), no selection, no IME areas. -/
def sampleData : RenderData where
  viewport := rect0
  buffer := []
  bufWidth := 80
  bufHeight := 24
  selectionRects := []
  cursorPos := ⟨5, 5⟩
  cursorVisible := true
  cursorDoubleWidth := true
  gridLineAllowed := true
  imeAreas := []
  isTrueType := true
  remap := fun _ => none
  defaultAttr := 7

/-- A concrete renderer diff state whose previous viewport equals the sample
data's current viewport. -/
def sampleState : RState := ⟨rect0, []⟩

/-- Splitting an indexed fan-out trace by engine: filtering the per-engine
blocks of a range flat-map down to index j yields exactly block j. -/
theorem filter_flatMap_range (g : Nat → List (Nat × ECall)) (n j : Nat)
    (hg : ∀ i p, p ∈ g i → p.1 = i) (hj : j < n) :
    ((List.range n).flatMap g).filter (fun p => p.1 == j) = g j := by
  induction n with
  | zero => exact absurd hj (Nat.not_lt_zero j)
  | succ n ih =>
    rw [List.range_succ, List.flatMap_append, List.filter_append]
    rcases Nat.lt_or_ge j n with h | h
    · rw [ih h]
      have hz : (List.flatMap [n] g).filter (fun p => p.1 == j) = [] := by
        rw [List.filter_eq_nil_iff]
        intro p hp
        simp only [List.flatMap_cons, List.flatMap_nil, List.append_nil] at hp
        have hpi := hg n p hp
        simp only [hpi, beq_iff_eq]
        omega
      rw [hz, List.append_nil]
    · have hj2 : j = n := by omega
      subst hj2
      have h1 : (List.flatMap (List.range j) g).filter (fun p => p.1 == j) = [] := by
        rw [List.filter_eq_nil_iff]
        intro p hp
        rw [List.mem_flatMap] at hp
        obtain ⟨i, hi, hpi⟩ := hp
        rw [List.mem_range] at hi
        have := hg i p hpi
        simp only [this, beq_iff_eq]
        omega
      have h2 : (List.flatMap [j] g).filter (fun p => p.1 == j) = g j := by
        simp only [List.flatMap_cons, List.flatMap_nil, List.append_nil]
        rw [List.filter_eq_self]
        intro p hp
        have := hg j p hp
        simp [this]
      rw [h1, h2, List.nil_append]

/-! ## C10 -/

/-- C10: the paint-all entry point (Renderer::PaintFrame) always reports
overall success (S_OK) to its caller, for every set of attached engines and
every combination of per-engine frame outcomes. -/
theorem paintFrame_always_S_OK (d : RenderData) (bs : List EngineBehavior) (st : RState) :
    (paintFrame d bs st).2.2 = S_OK := rfl

/-! ## C2 -/

/-- C2, counterexample: with one attached engine and the current viewport
equal to the stored previous viewport, the scroll-delta recomputation still
issues a scroll-invalidation call to the engine (carrying a zero delta), so
the cycle does not go without a scroll-invalidation call as claimed. -/
theorem checkViewportAndScroll_zero_delta_still_calls :
    sampleData.viewport = sampleState.srViewportPrevious ∧
    (checkViewportAndScroll sampleData 1 sampleState).1 =
      [(0, ECall.updateViewport rect0), (0, ECall.invalidateScroll ⟨0, 0⟩)] ∧
    ((checkViewportAndScroll sampleData 1 sampleState).1.filter
      (fun q => match q.2 with | ECall.invalidateScroll _ => true | _ => false)).length = 1 :=
  ⟨rfl, rfl, rfl⟩

/-- C2, amended: in every scroll-delta recomputation cycle each attached
engine receives exactly one update-viewport call with the new rectangle and
exactly one scroll-invalidation call carrying the delta
(previous minus current origin) — a zero delta when the viewport is
unchanged — previousViewport is updated to the new rectangle, and a repeated
cycle with the unchanged viewport therefore carries a zero delta; the
something-scrolled answer (used by TriggerScroll to wake the scheduler) is
true exactly when the delta is non-zero. -/
theorem checkViewportAndScroll_per_engine_calls (d : RenderData) (n : Nat) (st : RState)
    (j : Nat) (hj : j < n) :
    ((checkViewportAndScroll d n st).1.filter (fun p => p.1 == j)) =
      [(j, ECall.updateViewport d.viewport),
       (j, ECall.invalidateScroll ⟨st.srViewportPrevious.left - d.viewport.left,
                                   st.srViewportPrevious.top - d.viewport.top⟩)] ∧
    (checkViewportAndScroll d n st).2.1.srViewportPrevious = d.viewport ∧
    ((checkViewportAndScroll d n ((checkViewportAndScroll d n st).2.1)).1.filter
       (fun p => p.1 == j)) =
      [(j, ECall.updateViewport d.viewport), (j, ECall.invalidateScroll ⟨0, 0⟩)] ∧
    (triggerScroll d n st).2.2 =
      (decide (st.srViewportPrevious.left - d.viewport.left ≠ 0) ||
       decide (st.srViewportPrevious.top - d.viewport.top ≠ 0)) := by
  have hblock : ∀ (st' : RState),
      ((checkViewportAndScroll d n st').1.filter (fun p => p.1 == j)) =
        [(j, ECall.updateViewport d.viewport),
         (j, ECall.invalidateScroll ⟨st'.srViewportPrevious.left - d.viewport.left,
                                     st'.srViewportPrevious.top - d.viewport.top⟩)] := by
    intro st'
    have := filter_flatMap_range
      (fun i => [(i, ECall.updateViewport d.viewport),
                 (i, ECall.invalidateScroll ⟨st'.srViewportPrevious.left - d.viewport.left,
                                            st'.srViewportPrevious.top - d.viewport.top⟩)])
      n j (by intro i p hp; simp at hp; rcases hp with h | h <;> simp [h]) hj
    simpa [checkViewportAndScroll] using this
  refine ⟨hblock st, rfl, ?_, ?_⟩
  · have h2 := hblock ((checkViewportAndScroll d n st).2.1)
    have hprev : (checkViewportAndScroll d n st).2.1.srViewportPrevious = d.viewport := rfl
    rw [hprev] at h2
    simpa using h2
  · rw [Bool.eq_iff_iff]
    simp [triggerScroll, checkViewportAndScroll, bne_iff_ne]

/-- C2, witness for the amended theorem: one engine, previous viewport moved
two columns left and one row up relative to the sample rectangle. -/
theorem checkViewportAndScroll_per_engine_calls_witness :
    (0 : Nat) < 1 ∧
    (((checkViewportAndScroll sampleData 1 ⟨⟨2, 1, 81, 24⟩, []⟩).1.filter
        (fun p => p.1 == 0)) =
      [(0, ECall.updateViewport rect0), (0, ECall.invalidateScroll ⟨2, 1⟩)] ∧
     (checkViewportAndScroll sampleData 1 ⟨⟨2, 1, 81, 24⟩, []⟩).2.1.srViewportPrevious =
       rect0 ∧
     ((checkViewportAndScroll sampleData 1
         ((checkViewportAndScroll sampleData 1 ⟨⟨2, 1, 81, 24⟩, []⟩).2.1)).1.filter
        (fun p => p.1 == 0)) =
      [(0, ECall.updateViewport rect0), (0, ECall.invalidateScroll ⟨0, 0⟩)] ∧
     (triggerScroll sampleData 1 ⟨⟨2, 1, 81, 24⟩, []⟩).2.2 =
       (decide ((2 : Int) - 0 ≠ 0) || decide ((1 : Int) - 0 ≠ 0))) :=
  ⟨Nat.zero_lt_one,
   checkViewportAndScroll_per_engine_calls sampleData 1 ⟨⟨2, 1, 81, 24⟩, []⟩ 0 Nat.zero_lt_one⟩

/-! ## C3 -/

/-- The sample render data with a one-cell selection at buffer row 1. -/
def sampleSelData : RenderData :=
  { sampleData with selectionRects := [⟨1, 1, 2, 1⟩] }

/-- A renderer diff state remembering a previously rendered selection away
from the sample selection. -/
def sampleSelState : RState := ⟨rect0, [⟨10, 10, 12, 11⟩]⟩

/-- C3: TriggerSelection invalidates on every attached engine exactly the
union of the previously rendered selection rects A and the newly computed
rects B, stores B as previousSelection, and a repeated trigger while the
selection is still B invalidates exactly the coverage of B. -/
theorem triggerSelection_union_coverage (d : RenderData) (n : Nat) (st : RState)
    (j : Nat) (p : Coord) (hj : j < n) :
    selectionCovered (triggerSelection d n st).1 j p =
      (inRects st.previousSelection p || inRects (getSelectionRects d) p) ∧
    (triggerSelection d n st).2.previousSelection = getSelectionRects d ∧
    selectionCovered (triggerSelection d n ((triggerSelection d n st).2)).1 j p =
      inRects (getSelectionRects d) p := by
  have hblock : ∀ (st' : RState),
      ((triggerSelection d n st').1.filter (fun q => q.1 == j)) =
        [(j, ECall.invalidateSelection st'.previousSelection),
         (j, ECall.invalidateSelection (getSelectionRects d))] := by
    intro st'
    have := filter_flatMap_range
      (fun i => [(i, ECall.invalidateSelection st'.previousSelection),
                 (i, ECall.invalidateSelection (getSelectionRects d))]) n j
      (by intro i q hq; simp at hq; rcases hq with h | h <;> simp [h]) hj
    simpa [triggerSelection] using this
  refine ⟨?_, rfl, ?_⟩
  · unfold selectionCovered
    rw [hblock st]
    simp [selHit]
  · unfold selectionCovered
    rw [hblock ((triggerSelection d n st).2)]
    have hB : (triggerSelection d n st).2.previousSelection = getSelectionRects d := rfl
    rw [hB]
    simp [selHit]

/-- C3, witness: one engine, old selection around (10, 10), new selection
around (1, 1); the cell (10, 10) covered only by the old rects is still
invalidated, and previousSelection ends at the new rects. -/
theorem triggerSelection_union_coverage_witness :
    (0 : Nat) < 1 ∧
    (selectionCovered (triggerSelection sampleSelData 1 sampleSelState).1 0 ⟨10, 10⟩ =
      (inRects sampleSelState.previousSelection ⟨10, 10⟩ ||
       inRects (getSelectionRects sampleSelData) ⟨10, 10⟩) ∧
     (triggerSelection sampleSelData 1 sampleSelState).2.previousSelection =
       getSelectionRects sampleSelData ∧
     selectionCovered
       (triggerSelection sampleSelData 1 ((triggerSelection sampleSelData 1 sampleSelState).2)).1
       0 ⟨10, 10⟩ = inRects (getSelectionRects sampleSelData) ⟨10, 10⟩) :=
  ⟨Nat.zero_lt_one,
   triggerSelection_union_coverage sampleSelData 1 sampleSelState 0 ⟨10, 10⟩ Nat.zero_lt_one⟩

/-! ## C4 -/

/-- C4, failing input (code bug): two attached engines, double-width cursor
at buffer cell (5, 5) inside the viewport.  The shared updateCoord variable
is incremented inside the engine loop and never reset, so engine 0 gets the
cursor cell and its right half, (5, 5) and (6, 5), while engine 1 gets the
drifted pair (6, 5) and (7, 5) — not the same pair of cells on every
attached engine, and engine 1 never gets the cursor cell itself. -/
theorem triggerRedrawCursor_second_engine_drift :
    triggerRedrawCursor sampleData 2 ⟨5, 5⟩ =
      [(0, ECall.invalidateCursor ⟨5, 5⟩), (0, ECall.invalidateCursor ⟨6, 5⟩),
       (1, ECall.invalidateCursor ⟨6, 5⟩), (1, ECall.invalidateCursor ⟨7, 5⟩)] ∧
    ((triggerRedrawCursor sampleData 2 ⟨5, 5⟩).filter (fun q => q.1 == 1)).map Prod.snd ≠
      ((triggerRedrawCursor sampleData 2 ⟨5, 5⟩).filter (fun q => q.1 == 0)).map Prod.snd :=
  ⟨rfl, by decide⟩

/-! ## C9 -/

/-- An engine answering every font query with the ambiguous S_FALSE and
leaving every out-parameter untouched (the text-only passthrough head). -/
def fontEngineSFalse : FontEngine := ⟨S_FALSE, none, S_FALSE, none, S_FALSE, none⟩

/-- An engine answering every font query with S_OK, reporting a 1-by-1 font
size, FontInfo id 1 and a not-wide glyph. -/
def fontEngineOk11 : FontEngine := ⟨S_OK, some 1, S_OK, some ⟨1, 1⟩, S_OK, some false⟩

/-- C9, counterexample: GetFontSize has no failure channel.  With a single
engine answering only the ambiguous S_FALSE (no unambiguous success), the
operation returns the plain COORD 1-by-1 — exactly what it returns when an
engine successfully reports a 1-by-1 font — so no failure is reported to
the caller. -/
theorem getFontSize_no_failure_channel :
    getFontSize [fontEngineSFalse] = getFontSize [fontEngineOk11] ∧
    getFontSize [fontEngineSFalse] = ⟨1, 1⟩ ∧
    fontEngineSFalse.fontSizeHr ≠ S_OK ∧
    fontEngineOk11.fontSizeHr = S_OK :=
  ⟨rfl, rfl, by decide, rfl⟩

/-- Accumulated FontInfo out-parameter writes of a list of engines. -/
def proposedFontWrites (es : List FontEngine) (fi : Nat) : Nat :=
  es.foldl (fun s e => e.proposedFontWrite.getD s) fi

/-- Accumulated fontSize out-parameter writes of a list of engines. -/
def fontSizeWrites (es : List FontEngine) (sz : Coord) : Coord :=
  es.foldl (fun s e => e.fontSizeWrite.getD s) sz

/-- Accumulated fIsFullWidth out-parameter writes of a list of engines. -/
def glyphWideWrites (es : List FontEngine) (w : Bool) : Bool :=
  es.foldl (fun s e => e.glyphWideWrite.getD s) w

theorem getProposedFontLoop_no_success (es : List FontEngine) (fi : Nat)
    (h : ∀ e2 ∈ es, e2.proposedFontHr ≠ S_OK) :
    getProposedFontLoop es fi = (E_FAIL, proposedFontWrites es fi) := by
  induction es generalizing fi with
  | nil => rfl
  | cons e rest ih =>
    have he : e.proposedFontHr ≠ S_OK := h e (List.mem_cons_self e rest)
    simp only [getProposedFontLoop, if_neg he, proposedFontWrites, List.foldl_cons]
    exact ih _ (fun e2 h2 => h e2 (List.mem_cons_of_mem e h2))

theorem getProposedFontLoop_first (pre post : List FontEngine) (e : FontEngine) (fi : Nat)
    (h : ∀ e2 ∈ pre, e2.proposedFontHr ≠ S_OK) (he : e.proposedFontHr = S_OK) :
    getProposedFontLoop (pre ++ e :: post) fi =
      (S_OK, e.proposedFontWrite.getD (proposedFontWrites pre fi)) := by
  induction pre generalizing fi with
  | nil => simp [getProposedFontLoop, he, proposedFontWrites]
  | cons e2 rest ih =>
    have he2 : e2.proposedFontHr ≠ S_OK := h e2 (List.mem_cons_self e2 rest)
    simp only [List.cons_append, getProposedFontLoop, if_neg he2, proposedFontWrites,
      List.foldl_cons]
    exact ih _ (fun e3 h3 => h e3 (List.mem_cons_of_mem e2 h3))

theorem getFontSizeLoop_no_success (es : List FontEngine) (sz : Coord)
    (h : ∀ e2 ∈ es, e2.fontSizeHr ≠ S_OK) :
    getFontSizeLoop es sz = fontSizeWrites es sz := by
  induction es generalizing sz with
  | nil => rfl
  | cons e rest ih =>
    have he : e.fontSizeHr ≠ S_OK := h e (List.mem_cons_self e rest)
    simp only [getFontSizeLoop, if_neg he, fontSizeWrites, List.foldl_cons]
    exact ih _ (fun e2 h2 => h e2 (List.mem_cons_of_mem e h2))

theorem getFontSizeLoop_first (pre post : List FontEngine) (e : FontEngine) (sz : Coord)
    (h : ∀ e2 ∈ pre, e2.fontSizeHr ≠ S_OK) (he : e.fontSizeHr = S_OK) :
    getFontSizeLoop (pre ++ e :: post) sz = e.fontSizeWrite.getD (fontSizeWrites pre sz) := by
  induction pre generalizing sz with
  | nil => simp [getFontSizeLoop, he, fontSizeWrites]
  | cons e2 rest ih =>
    have he2 : e2.fontSizeHr ≠ S_OK := h e2 (List.mem_cons_self e2 rest)
    simp only [List.cons_append, getFontSizeLoop, if_neg he2, fontSizeWrites, List.foldl_cons]
    exact ih _ (fun e3 h3 => h e3 (List.mem_cons_of_mem e2 h3))

theorem isGlyphWideByFontLoop_no_success (es : List FontEngine) (w : Bool)
    (h : ∀ e2 ∈ es, e2.glyphWideHr ≠ S_OK) :
    isGlyphWideByFontLoop es w = glyphWideWrites es w := by
  induction es generalizing w with
  | nil => rfl
  | cons e rest ih =>
    have he : e.glyphWideHr ≠ S_OK := h e (List.mem_cons_self e rest)
    simp only [isGlyphWideByFontLoop, if_neg he, glyphWideWrites, List.foldl_cons]
    exact ih _ (fun e2 h2 => h e2 (List.mem_cons_of_mem e h2))

theorem isGlyphWideByFontLoop_first (pre post : List FontEngine) (e : FontEngine) (w : Bool)
    (h : ∀ e2 ∈ pre, e2.glyphWideHr ≠ S_OK) (he : e.glyphWideHr = S_OK) :
    isGlyphWideByFontLoop (pre ++ e :: post) w =
      e.glyphWideWrite.getD (glyphWideWrites pre w) := by
  induction pre generalizing w with
  | nil => simp [isGlyphWideByFontLoop, he, glyphWideWrites]
  | cons e2 rest ih =>
    have he2 : e2.glyphWideHr ≠ S_OK := h e2 (List.mem_cons_self e2 rest)
    simp only [List.cons_append, isGlyphWideByFontLoop, if_neg he2, glyphWideWrites,
      List.foldl_cons]
    exact ih _ (fun e3 h3 => h e3 (List.mem_cons_of_mem e2 h3))

/-- C9, amended: each font/size query walks the attached engines in order
and answers with the first unambiguous success (S_OK, not S_FALSE).  When no
engine answers S_OK, GetProposedFont reports failure (E_FAIL), but
GetFontSize and IsGlyphWideByFont have no failure channel: they return the
accumulated out-parameter variable (starting from the 1-by-1 placeholder and
false respectively, as overwritten by the engines walked) with no failure
indication. -/
theorem fontQueries_first_unambiguous_success (pre post es : List FontEngine)
    (e : FontEngine) (fi : Nat) :
    ((∀ e2 ∈ es, e2.proposedFontHr ≠ S_OK) → (getProposedFont es fi).1 = E_FAIL) ∧
    ((∀ e2 ∈ pre, e2.proposedFontHr ≠ S_OK) → e.proposedFontHr = S_OK →
      getProposedFont (pre ++ e :: post) fi =
        (S_OK, e.proposedFontWrite.getD (proposedFontWrites pre fi))) ∧
    ((∀ e2 ∈ es, e2.fontSizeHr ≠ S_OK) → getFontSize es = fontSizeWrites es ⟨1, 1⟩) ∧
    ((∀ e2 ∈ pre, e2.fontSizeHr ≠ S_OK) → e.fontSizeHr = S_OK →
      getFontSize (pre ++ e :: post) = e.fontSizeWrite.getD (fontSizeWrites pre ⟨1, 1⟩)) ∧
    ((∀ e2 ∈ es, e2.glyphWideHr ≠ S_OK) → isGlyphWideByFont es = glyphWideWrites es false) ∧
    ((∀ e2 ∈ pre, e2.glyphWideHr ≠ S_OK) → e.glyphWideHr = S_OK →
      isGlyphWideByFont (pre ++ e :: post) =
        e.glyphWideWrite.getD (glyphWideWrites pre false)) := by
  refine ⟨fun h => ?_, fun h he => ?_, fun h => ?_, fun h he => ?_, fun h => ?_, fun h he => ?_⟩
  · unfold getProposedFont
    by_cases hlen : es.length < 1
    · simp [hlen]
    · simp only [if_neg hlen]
      rw [getProposedFontLoop_no_success es fi h]
  · unfold getProposedFont
    have hlen : ¬ (pre ++ e :: post).length < 1 := by simp
    simp only [if_neg hlen]
    exact getProposedFontLoop_first pre post e fi h he
  · exact getFontSizeLoop_no_success es _ h
  · exact getFontSizeLoop_first pre post e _ h he
  · exact isGlyphWideByFontLoop_no_success es _ h
  · exact isGlyphWideByFontLoop_first pre post e _ h he

/-- C9, witness for the amended theorem: a passthrough S_FALSE engine alone
gives E_FAIL / the untouched placeholders, and an S_OK engine behind the
passthrough one is the first unambiguous success and supplies the answers. -/
theorem fontQueries_first_unambiguous_success_witness :
    (getProposedFont [fontEngineSFalse] 5).1 = E_FAIL ∧
    getProposedFont [fontEngineSFalse, fontEngineOk11] 5 = (S_OK, 1) ∧
    getFontSize [fontEngineSFalse] = ⟨1, 1⟩ ∧
    getFontSize [fontEngineSFalse, fontEngineOk11] = ⟨1, 1⟩ ∧
    isGlyphWideByFont [fontEngineSFalse] = false ∧
    isGlyphWideByFont [fontEngineSFalse, fontEngineOk11] = false := by
  have h := fontQueries_first_unambiguous_success [fontEngineSFalse] [] [fontEngineSFalse]
    fontEngineOk11 5
  refine ⟨h.1 (by decide), ?_, ?_, ?_, ?_, ?_⟩
  · have h2 := h.2.1 (by decide) (by decide)
    simpa using h2
  · have h2 := h.2.2.1 (by decide)
    simpa [fontSizeWrites, fontEngineSFalse] using h2
  · have h2 := h.2.2.2.1 (by decide) (by decide)
    simpa using h2
  · have h2 := h.2.2.2.2.1 (by decide)
    simpa [glyphWideWrites, fontEngineSFalse] using h2
  · have h2 := h.2.2.2.2.2 (by decide) (by decide)
    simpa using h2

/-! ## C1 -/

/-- The single-pass copy of the double-byte helper equals dropping every
trailing cell and tagging each kept cell with its width class. -/
theorem dbcsStrip_eq_filter_map (l : List (Nat × Cell)) :
    dbcsStrip l =
      (l.filter (fun gc => !(gc.2.dbcs == DbcsA.trailing))).map
        (fun gc => (gc.1, if gc.2.dbcs = DbcsA.leading then 2 else 1)) := by
  induction l with
  | nil => rfl
  | cons gc rest ih =>
    by_cases h : gc.2.dbcs = DbcsA.trailing
    · simp [dbcsStrip, List.filterMap_cons, List.filter_cons, h] at ih ⊢
      exact ih
    · simp [dbcsStrip, List.filterMap_cons, List.filter_cons, h] at ih ⊢
      exact ih

/-- C1: for a row segment handed to the row-drawing step, when the first cell
is not a trailing (WideTrail) cell, every trailing cell is dropped from the
text sent to the engine, each kept cell is tagged once with width 2 when
leading and width 1 when single, the draw target equals the requested target
and the clip-left-half flag is clear; when the first cell is a trailing cell,
its glyph is nevertheless included with width 2, the draw target is shifted
exactly one column left of the requested target, and the clip-left-half flag
is set. -/
theorem doubleByteHelper_wide_glyph_dedup (g : Nat) (c : Cell) (rest : List (Nat × Cell))
    (tgt : Coord) :
    (c.dbcs ≠ DbcsA.trailing →
      (doubleByteHelper ((g, c) :: rest) tgt).1 =
        (((g, c) :: rest).filter (fun gc => !(gc.2.dbcs == DbcsA.trailing))).map
          (fun gc => (gc.1, if gc.2.dbcs = DbcsA.leading then 2 else 1)) ∧
      (doubleByteHelper ((g, c) :: rest) tgt).2.1 = tgt ∧
      (doubleByteHelper ((g, c) :: rest) tgt).2.2 = false) ∧
    (c.dbcs = DbcsA.trailing →
      (doubleByteHelper ((g, c) :: rest) tgt).1 =
        (g, 2) :: (rest.filter (fun gc => !(gc.2.dbcs == DbcsA.trailing))).map
          (fun gc => (gc.1, if gc.2.dbcs = DbcsA.leading then 2 else 1)) ∧
      (doubleByteHelper ((g, c) :: rest) tgt).2.1 = Coord.mk (tgt.x - 1) tgt.y ∧
      (doubleByteHelper ((g, c) :: rest) tgt).2.2 = true) := by
  constructor
  · intro h
    refine ⟨?_, ?_, ?_⟩ <;> simp only [doubleByteHelper, if_neg h]
    exact dbcsStrip_eq_filter_map _
  · intro h
    refine ⟨?_, ?_, ?_⟩ <;> simp only [doubleByteHelper, if_pos h]
    rw [dbcsStrip_eq_filter_map]

/-- C1, witness: a segment starting on the trailing half of a wide glyph
followed by a single-width cell — the glyph is kept with width 2, the target
moves one column left and the trim-left flag is set. -/
theorem doubleByteHelper_wide_glyph_dedup_witness :
    (Cell.mk 65 DbcsA.trailing).dbcs = DbcsA.trailing ∧
    ((doubleByteHelper [(65, Cell.mk 65 DbcsA.trailing), (66, Cell.mk 66 DbcsA.single)]
        ⟨3, 0⟩).1 =
      (65, 2) :: ([(66, Cell.mk 66 DbcsA.single)].filter
          (fun gc => !(gc.2.dbcs == DbcsA.trailing))).map
          (fun gc => (gc.1, if gc.2.dbcs = DbcsA.leading then 2 else 1)) ∧
     (doubleByteHelper [(65, Cell.mk 65 DbcsA.trailing), (66, Cell.mk 66 DbcsA.single)]
        ⟨3, 0⟩).2.1 = Coord.mk 2 0 ∧
     (doubleByteHelper [(65, Cell.mk 65 DbcsA.trailing), (66, Cell.mk 66 DbcsA.single)]
        ⟨3, 0⟩).2.2 = true) :=
  ⟨rfl, (doubleByteHelper_wide_glyph_dedup 65 (Cell.mk 65 DbcsA.trailing)
      [(66, Cell.mk 66 DbcsA.single)] ⟨3, 0⟩).2 rfl⟩

/-! ## C8 -/

/-- The column cursor chains: each emitted segment starts exactly where the
previous one ended (the cursor advanced by exactly the emitted length). -/
def chainedB : Nat → List Seg → Bool
  | _, [] => true
  | w, s :: rest => (s.written == w) && chainedB (w + s.len) rest

/-- The segments emitted by the color-helper loop from an arbitrary loop
position. -/
def loopSegs (runs : List (Nat × Nat)) (iFirstAttr cchLine cchWritten itLen : Nat) :
    List Seg :=
  (colorLoop runs iFirstAttr cchLine cchWritten itLen).filterMap (fun item =>
    match item with
    | ColorItem.brush _ => none
    | ColorItem.seg s => some s)

theorem colorSegs_eq_loopSegs (runs : List (Nat × Nat)) (iFirstAttr cchLine itLen : Nat) :
    colorSegs runs iFirstAttr cchLine itLen = loopSegs runs iFirstAttr cchLine 0 itLen := rfl

/-- A queried column inside the covered width always has a positive
applicable run length. -/
theorem getAttrByColumn_pos (runs : List (Nat × Nat)) (c : Nat)
    (hruns : ∀ r ∈ runs, 0 < r.2) (hc : c < runsTotal runs) :
    0 < (getAttrByColumn runs c).2 := by
  induction runs generalizing c with
  | nil => simp [runsTotal] at hc
  | cons r rest ih =>
    rcases r with ⟨a, m⟩
    by_cases h : c < m
    · simp [getAttrByColumn, h]
    · simp only [getAttrByColumn, if_neg h]
      apply ih
      · intro r2 h2
        exact hruns r2 (List.mem_cons_of_mem _ h2)
      · simp only [runsTotal, List.map_cons, List.sum_cons] at hc
        simp only [runsTotal]
        omega

/-- Every column within the applicable length of a query lies in the same
maximal run as the queried column. -/
theorem runOfColumn_stable (runs : List (Nat × Nat)) (c k : Nat)
    (hk : k < (getAttrByColumn runs c).2) :
    runOfColumn runs (c + k) = runOfColumn runs c := by
  induction runs generalizing c with
  | nil => simp [getAttrByColumn] at hk
  | cons r rest ih =>
    rcases r with ⟨a, m⟩
    by_cases h : c < m
    · have h2 : c + k < m := by
        simp only [getAttrByColumn, if_pos h] at hk
        omega
      simp [runOfColumn, h, h2]
    · simp only [getAttrByColumn, if_neg h] at hk
      have h2 : ¬ (c + k < m) := by omega
      simp only [runOfColumn, if_neg h, if_neg h2]
      have h3 : c + k - m = (c - m) + k := by omega
      rw [h3, ih _ hk]

theorem loopSegs_terminal (runs : List (Nat × Nat)) (iFirstAttr cchLine cchWritten itLen : Nat)
    (hww : cchLine - cchWritten = 0) :
    loopSegs runs iFirstAttr cchLine cchWritten itLen = [] := by
  unfold loopSegs colorLoop
  simp [hww]

theorem loopSegs_step (runs : List (Nat × Nat)) (iFirstAttr cchLine cchWritten itLen : Nat)
    (hseg : ¬ min (cchLine - cchWritten) (getAttrByColumn runs (iFirstAttr + cchWritten)).2 = 0)
    (h2 : cchWritten + min (cchLine - cchWritten)
            (getAttrByColumn runs (iFirstAttr + cchWritten)).2 < cchLine ∧
          min (cchLine - cchWritten) (getAttrByColumn runs (iFirstAttr + cchWritten)).2 < itLen) :
    loopSegs runs iFirstAttr cchLine cchWritten itLen =
      Seg.mk (getAttrByColumn runs (iFirstAttr + cchWritten)).1 cchWritten
        (min (cchLine - cchWritten) (getAttrByColumn runs (iFirstAttr + cchWritten)).2) ::
      loopSegs runs iFirstAttr cchLine
        (cchWritten + min (cchLine - cchWritten)
          (getAttrByColumn runs (iFirstAttr + cchWritten)).2)
        (itLen - min (cchLine - cchWritten)
          (getAttrByColumn runs (iFirstAttr + cchWritten)).2) := by
  have ha : ¬ (cchLine - cchWritten = 0) := by omega
  have hb : ¬ ((getAttrByColumn runs (iFirstAttr + cchWritten)).2 = 0) := by omega
  have hc : cchWritten + min (cchLine - cchWritten)
      (getAttrByColumn runs (iFirstAttr + cchWritten)).2 < cchLine := h2.1
  have hd1 : cchLine - cchWritten < itLen ∨
      (getAttrByColumn runs (iFirstAttr + cchWritten)).2 < itLen := by omega
  conv_lhs => unfold loopSegs colorLoop
  simp [ha, hb, hc, hd1, loopSegs]

theorem loopSegs_last (runs : List (Nat × Nat)) (iFirstAttr cchLine cchWritten itLen : Nat)
    (hseg : ¬ min (cchLine - cchWritten) (getAttrByColumn runs (iFirstAttr + cchWritten)).2 = 0)
    (h2 : ¬ (cchWritten + min (cchLine - cchWritten)
               (getAttrByColumn runs (iFirstAttr + cchWritten)).2 < cchLine ∧
             min (cchLine - cchWritten)
               (getAttrByColumn runs (iFirstAttr + cchWritten)).2 < itLen)) :
    loopSegs runs iFirstAttr cchLine cchWritten itLen =
      [Seg.mk (getAttrByColumn runs (iFirstAttr + cchWritten)).1 cchWritten
        (min (cchLine - cchWritten) (getAttrByColumn runs (iFirstAttr + cchWritten)).2)] := by
  have ha : ¬ (cchLine - cchWritten = 0) := by omega
  have hb : ¬ ((getAttrByColumn runs (iFirstAttr + cchWritten)).2 = 0) := by omega
  conv_lhs => unfold loopSegs colorLoop
  by_cases hc : cchWritten + min (cchLine - cchWritten)
      (getAttrByColumn runs (iFirstAttr + cchWritten)).2 < cchLine
  · have hd : ¬ (cchLine - cchWritten < itLen ∨
        (getAttrByColumn runs (iFirstAttr + cchWritten)).2 < itLen) := by omega
    simp [ha, hb, hc, hd]
  · simp [ha, hb, hc]

/-- The color-helper loop, started anywhere with enough cells left, emits
segments whose lengths sum to the remaining requested width, which chain
contiguously from the current position, and each of which stays inside one
maximal attribute run. -/
theorem loopSegs_spec (runs : List (Nat × Nat)) (iFirstAttr cchLine : Nat)
    (hruns : ∀ r ∈ runs, 0 < r.2) (hcov : iFirstAttr + cchLine ≤ runsTotal runs) :
    ∀ fuel cchWritten itLen, cchLine - cchWritten ≤ fuel → cchWritten ≤ cchLine →
      cchLine - cchWritten ≤ itLen →
      ((loopSegs runs iFirstAttr cchLine cchWritten itLen).map Seg.len).sum =
          cchLine - cchWritten ∧
      chainedB cchWritten (loopSegs runs iFirstAttr cchLine cchWritten itLen) = true ∧
      (∀ s ∈ loopSegs runs iFirstAttr cchLine cchWritten itLen, ∀ k, k < s.len →
        runOfColumn runs (iFirstAttr + s.written + k) =
          runOfColumn runs (iFirstAttr + s.written)) := by
  intro fuel
  induction fuel with
  | zero =>
    intro cchWritten itLen hf hw hit
    have hww : cchLine - cchWritten = 0 := by omega
    rw [loopSegs_terminal runs iFirstAttr cchLine cchWritten itLen hww]
    exact ⟨by simp [hww], rfl, by simp⟩
  | succ fuel ih =>
    intro cchWritten itLen hf hw hit
    by_cases hww : cchLine - cchWritten = 0
    · rw [loopSegs_terminal runs iFirstAttr cchLine cchWritten itLen hww]
      exact ⟨by simp [hww], rfl, by simp⟩
    · have hcol : iFirstAttr + cchWritten < runsTotal runs := by omega
      have happ : 0 < (getAttrByColumn runs (iFirstAttr + cchWritten)).2 :=
        getAttrByColumn_pos runs _ hruns hcol
      have hseg0 : ¬ min (cchLine - cchWritten)
          (getAttrByColumn runs (iFirstAttr + cchWritten)).2 = 0 := by omega
      by_cases hg : cchWritten + min (cchLine - cchWritten)
            (getAttrByColumn runs (iFirstAttr + cchWritten)).2 < cchLine ∧
          min (cchLine - cchWritten) (getAttrByColumn runs (iFirstAttr + cchWritten)).2 < itLen
      · rw [loopSegs_step runs iFirstAttr cchLine cchWritten itLen hseg0 hg]
        obtain ⟨hsum, hchain, hrun⟩ := ih
          (cchWritten + min (cchLine - cchWritten)
            (getAttrByColumn runs (iFirstAttr + cchWritten)).2)
          (itLen - min (cchLine - cchWritten)
            (getAttrByColumn runs (iFirstAttr + cchWritten)).2)
          (by omega) (by omega) (by omega)
        refine ⟨?_, ?_, ?_⟩
        · simp only [List.map_cons, List.sum_cons, hsum]
          omega
        · simp [chainedB, hchain]
        · intro s hs k hk
          rcases List.mem_cons.mp hs with hs1 | hs1
          · subst hs1
            exact runOfColumn_stable runs (iFirstAttr + cchWritten) k (by simp at hk; omega)
          · exact hrun s hs1 k hk
      · rw [loopSegs_last runs iFirstAttr cchLine cchWritten itLen hseg0 hg]
        have hfull : min (cchLine - cchWritten)
            (getAttrByColumn runs (iFirstAttr + cchWritten)).2 = cchLine - cchWritten := by
          omega
        refine ⟨?_, ?_, ?_⟩
        · simp [hfull]
        · simp [chainedB]
        · intro s hs k hk
          have hs1 : s = Seg.mk (getAttrByColumn runs (iFirstAttr + cchWritten)).1 cchWritten
              (min (cchLine - cchWritten) (getAttrByColumn runs (iFirstAttr + cchWritten)).2) := by
            simpa using hs
          subst hs1
          exact runOfColumn_stable runs (iFirstAttr + cchWritten) k (by simp at hk; omega)

/-- C8: attribute-run decoding is length-preserving — for a span of styled
columns requested in full (the cell iterator has at least the requested
width left and the attribute runs cover the requested columns), the emitted
segment lengths sum to the requested width, the column cursor advances by
exactly the emitted segment length at each step (the segments chain from
position 0), and every emitted segment lies entirely inside one maximal
attribute run, so segment boundaries coincide with resolved-style
boundaries. -/
theorem colorHelper_length_preserving (runs : List (Nat × Nat))
    (iFirstAttr cchLine itLen : Nat) (hruns : ∀ r ∈ runs, 0 < r.2)
    (hcov : iFirstAttr + cchLine ≤ runsTotal runs) (hit : cchLine ≤ itLen) :
    ((colorSegs runs iFirstAttr cchLine itLen).map Seg.len).sum = cchLine ∧
    chainedB 0 (colorSegs runs iFirstAttr cchLine itLen) = true ∧
    ∀ s ∈ colorSegs runs iFirstAttr cchLine itLen, ∀ k, k < s.len →
      runOfColumn runs (iFirstAttr + s.written + k) =
        runOfColumn runs (iFirstAttr + s.written) := by
  have h := loopSegs_spec runs iFirstAttr cchLine hruns hcov cchLine 0 itLen
    (by omega) (by omega) (by omega)
  rw [colorSegs_eq_loopSegs]
  simpa using h

/-- C8, witness: two runs of lengths 3 and 2 decode a full-width request of
5 columns into chained segments summing to 5, each inside one run. -/
theorem colorHelper_length_preserving_witness :
    ((∀ r ∈ [((7 : Nat), (3 : Nat)), (9, 2)], 0 < r.2) ∧
      0 + 5 ≤ runsTotal [(7, 3), (9, 2)] ∧ (5 : Nat) ≤ 5) ∧
    (((colorSegs [(7, 3), (9, 2)] 0 5 5).map Seg.len).sum = 5 ∧
     chainedB 0 (colorSegs [(7, 3), (9, 2)] 0 5 5) = true ∧
     ∀ s ∈ colorSegs [(7, 3), (9, 2)] 0 5 5, ∀ k, k < s.len →
       runOfColumn [(7, 3), (9, 2)] (0 + s.written + k) =
         runOfColumn [(7, 3), (9, 2)] (0 + s.written)) :=
  ⟨⟨by decide, by decide, by decide⟩,
   colorHelper_length_preserving [(7, 3), (9, 2)] 0 5 5 (by decide) (by decide) (by decide)⟩

/-! ## C5, C6, C7: frame traces, failure isolation, lock discipline, teardown -/



theorem checkViewportAndScroll_nonMarker (d : RenderData) (n : Nat) (st : RState) :
    ∀ q ∈ (checkViewportAndScroll d n st).1, nonMarker q.2 = true := by
  intro q hq
  unfold checkViewportAndScroll at hq
  simp only [List.mem_flatMap, List.mem_range] at hq
  obtain ⟨i, _, hq2⟩ := hq
  simp only [List.mem_cons, List.not_mem_nil, or_false] at hq2
  rcases hq2 with rfl | rfl <;> rfl



theorem mem_ite_nil {α : Type} {P : Prop} [Decidable P] {l : List α} {c : α}
    (h : c ∈ (if P then l else [])) : c ∈ l := by
  by_cases hp : P
  · rwa [if_pos hp] at h
  · rw [if_neg hp] at h
    exact absurd h (List.not_mem_nil c)

theorem itemCalls_nonMarker (gridAllowed : Bool) (text : List Nat) (cells : List Cell)
    (target : Coord) (wrapped : Bool) (item : ColorItem) :
    ∀ c ∈ itemCalls gridAllowed text cells target wrapped item, nonMarker c = true := by
  intro c hc
  cases item with
  | brush a => simp only [itemCalls, List.mem_singleton] at hc; subst hc; rfl
  | seg s =>
    simp only [itemCalls, doubleByteCall, List.mem_cons] at hc
    rcases hc with rfl | hc
    · rfl
    · by_cases hg : gridAllowed = true
      · simp [hg] at hc; subst hc; rfl
      · simp [hg] at hc

theorem colorHelperCalls_nonMarker (gridAllowed : Bool) (runs : List (Nat × Nat))
    (text : List Nat) (cells : List Cell) (iFirstAttr cchLine : Nat) (target : Coord)
    (wrapped : Bool) :
    ∀ c ∈ colorHelperCalls gridAllowed runs text cells iFirstAttr cchLine target wrapped,
      nonMarker c = true := by
  intro c hc
  unfold colorHelperCalls at hc
  rw [List.mem_flatMap] at hc
  obtain ⟨item, _, hc2⟩ := hc
  exact itemCalls_nonMarker gridAllowed text cells target wrapped item c hc2

theorem rasterFontHelperCalls_nonMarker (d : RenderData) (row : RowT) (text : List Nat)
    (cells : List Cell) (cchLine iFirstAttr : Nat) (target : Coord) (wrapped : Bool) :
    ∀ c ∈ rasterFontHelperCalls d row text cells cchLine iFirstAttr target wrapped,
      nonMarker c = true := by
  intro c hc
  unfold rasterFontHelperCalls at hc
  exact colorHelperCalls_nonMarker _ _ _ _ _ _ _ _ c hc

theorem paintBufferOutputCalls_nonMarker (d : RenderData) (b : EngineBehavior) :
    ∀ c ∈ paintBufferOutputCalls d b, nonMarker c = true := by
  intro c hc
  unfold paintBufferOutputCalls at hc
  rw [List.mem_flatMap] at hc
  obtain ⟨iRow, _, hc2⟩ := hc
  exact rasterFontHelperCalls_nonMarker _ _ _ _ _ _ _ _ c (mem_ite_nil hc2)



theorem paintImeCalls_nonMarker (d : RenderData) (b : EngineBehavior) (area : ImeArea) :
    ∀ c ∈ paintImeCalls d b area, nonMarker c = true := by
  intro c hc
  unfold paintImeCalls at hc
  by_cases hh : area.hidden = true
  · simp [hh] at hc
  · rw [if_neg hh] at hc
    split at hc
    · exact absurd hc (List.not_mem_nil c)
    · rw [List.mem_flatMap] at hc
      obtain ⟨iRow, _, hc2⟩ := hc
      exact rasterFontHelperCalls_nonMarker _ _ _ _ _ _ _ _ c hc2

theorem paintImeCompositionCalls_nonMarker (d : RenderData) (b : EngineBehavior) :
    ∀ c ∈ paintImeCompositionCalls d b, nonMarker c = true := by
  intro c hc
  unfold paintImeCompositionCalls at hc
  rw [List.mem_flatMap] at hc
  obtain ⟨area, _, hc2⟩ := hc
  exact paintImeCalls_nonMarker d b area c hc2

theorem paintSelectionCalls_nonMarker (d : RenderData) (b : EngineBehavior) :
    ∀ c ∈ paintSelectionCalls d b, nonMarker c = true := by
  intro c hc
  unfold paintSelectionCalls at hc
  rw [List.mem_filterMap] at hc
  obtain ⟨r, _, hc2⟩ := hc
  rcases htrim : trimToViewport b.dirtyRect r with _ | rr
  · rw [htrim] at hc2
    exact Option.noConfusion hc2
  · rw [htrim] at hc2
    rw [Option.map_some', Option.some_inj] at hc2
    subst hc2
    rfl

theorem paintCursorCalls_nonMarker (d : RenderData) :
    ∀ c ∈ paintCursorCalls d, nonMarker c = true := by
  intro c hc
  unfold paintCursorCalls at hc
  by_cases hv : d.cursorVisible = true
  · rw [if_pos hv] at hc
    simp only [List.mem_singleton] at hc
    subst hc
    rfl
  · simp [hv] at hc

theorem frameBody_nonMarker (d : RenderData) (b : EngineBehavior) :
    ∀ c ∈ paintBufferOutputCalls d b ++ paintImeCompositionCalls d b ++
        paintSelectionCalls d b ++ paintCursorCalls d, nonMarker c = true := by
  intro c hc
  simp only [List.mem_append] at hc
  rcases hc with ((h | h) | h) | h
  · exact paintBufferOutputCalls_nonMarker d b c h
  · exact paintImeCompositionCalls_nonMarker d b c h
  · exact paintSelectionCalls_nonMarker d b c h
  · exact paintCursorCalls_nonMarker d c h



theorem filterMapStart_single_nil (i : Nat) (l : List ECall)
    (h : ∀ x ∈ l, nonMarker x = true) :
    List.filterMap ((fun e =>
      match e with
      | Ev.call j ECall.startPaint => some j
      | _ => none) ∘ Ev.call i) l = [] := by
  rw [List.filterMap_eq_nil_iff]
  intro x hx
  have := h x hx
  cases x <;> simp_all [nonMarker, Function.comp]

theorem filterMapStart_pairs_nil (l : List (Nat × ECall))
    (h : ∀ q ∈ l, nonMarker q.2 = true) :
    List.filterMap ((fun e =>
      match e with
      | Ev.call j ECall.startPaint => some j
      | _ => none) ∘ fun p => Ev.call p.1 p.2) l = [] := by
  rw [List.filterMap_eq_nil_iff]
  intro q hq
  have := h q hq
  rcases q with ⟨a, b⟩
  cases b <;> simp_all [nonMarker, Function.comp]

theorem frame_startIdxs (d : RenderData) (bs : List EngineBehavior) (st : RState) (i : Nat) :
    startIdxs (paintFrameForEngine d bs st i).1 = [i] := by
  have hcvs := filterMapStart_pairs_nil (checkViewportAndScroll d bs.length st).1
    (checkViewportAndScroll_nonMarker d bs.length st)
  have hb1 := filterMapStart_single_nil i (paintBufferOutputCalls d ((bs[i]?).getD default))
    (paintBufferOutputCalls_nonMarker d ((bs[i]?).getD default))
  have hb2 := filterMapStart_single_nil i (paintImeCompositionCalls d ((bs[i]?).getD default))
    (paintImeCompositionCalls_nonMarker d ((bs[i]?).getD default))
  have hb3 := filterMapStart_single_nil i (paintSelectionCalls d ((bs[i]?).getD default))
    (paintSelectionCalls_nonMarker d ((bs[i]?).getD default))
  have hb4 := filterMapStart_single_nil i (paintCursorCalls d) (paintCursorCalls_nonMarker d)
  unfold startIdxs
  unfold paintFrameForEngine
  split_ifs <;>
    simp [hcvs, hb1, hb2, hb3, hb4, List.filterMap_append, List.filterMap_cons]

def presentIdxs (tr : List Ev) : List Nat :=
  tr.filterMap (fun e =>
    match e with
    | Ev.call j ECall.present => some j
    | _ => none)

def prepareIdxs (tr : List Ev) : List Nat :=
  tr.filterMap (fun e =>
    match e with
    | Ev.call j ECall.prepareForTeardown => some j
    | _ => none)

theorem filterMapPresent_single_nil (i : Nat) (l : List ECall)
    (h : ∀ x ∈ l, nonMarker x = true) :
    List.filterMap ((fun e =>
      match e with
      | Ev.call j ECall.present => some j
      | _ => none) ∘ Ev.call i) l = [] := by
  rw [List.filterMap_eq_nil_iff]
  intro x hx
  have := h x hx
  cases x <;> simp_all [nonMarker, Function.comp]

theorem filterMapPresent_pairs_nil (l : List (Nat × ECall))
    (h : ∀ q ∈ l, nonMarker q.2 = true) :
    List.filterMap ((fun e =>
      match e with
      | Ev.call j ECall.present => some j
      | _ => none) ∘ fun p => Ev.call p.1 p.2) l = [] := by
  rw [List.filterMap_eq_nil_iff]
  intro q hq
  have := h q hq
  rcases q with ⟨a, b⟩
  cases b <;> simp_all [nonMarker, Function.comp]

theorem filterMapPrepare_single_nil (i : Nat) (l : List ECall)
    (h : ∀ x ∈ l, nonMarker x = true) :
    List.filterMap ((fun e =>
      match e with
      | Ev.call j ECall.prepareForTeardown => some j
      | _ => none) ∘ Ev.call i) l = [] := by
  rw [List.filterMap_eq_nil_iff]
  intro x hx
  have := h x hx
  cases x <;> simp_all [nonMarker, Function.comp]

theorem filterMapPrepare_pairs_nil (l : List (Nat × ECall))
    (h : ∀ q ∈ l, nonMarker q.2 = true) :
    List.filterMap ((fun e =>
      match e with
      | Ev.call j ECall.prepareForTeardown => some j
      | _ => none) ∘ fun p => Ev.call p.1 p.2) l = [] := by
  rw [List.filterMap_eq_nil_iff]
  intro q hq
  have := h q hq
  rcases q with ⟨a, b⟩
  cases b <;> simp_all [nonMarker, Function.comp]

theorem frame_presentIdxs_of_reaches (d : RenderData) (bs : List EngineBehavior)
    (st : RState) (i : Nat) (h : reachesPresent (bs.getD i default) = true) :
    presentIdxs (paintFrameForEngine d bs st i).1 = [i] := by
  have hcvs := filterMapPresent_pairs_nil (checkViewportAndScroll d bs.length st).1
    (checkViewportAndScroll_nonMarker d bs.length st)
  revert h
  unfold presentIdxs
  unfold paintFrameForEngine
  generalize List.getD bs i default = b
  intro h
  simp only [reachesPresent, Bool.and_eq_true, Bool.not_eq_true'] at h
  obtain ⟨⟨⟨⟨⟨k1, k2⟩, k3⟩, k4⟩, k5⟩, k6⟩ := h
  have hb1 := filterMapPresent_single_nil i (paintBufferOutputCalls d b)
    (paintBufferOutputCalls_nonMarker d b)
  have hb2 := filterMapPresent_single_nil i (paintImeCompositionCalls d b)
    (paintImeCompositionCalls_nonMarker d b)
  have hb3 := filterMapPresent_single_nil i (paintSelectionCalls d b)
    (paintSelectionCalls_nonMarker d b)
  have hb4 := filterMapPresent_single_nil i (paintCursorCalls d)
    (paintCursorCalls_nonMarker d)
  split_ifs with h1 h2 h3 h4 h5 h6 h7
  · rw [h1] at k1
    exact Bool.noConfusion k1
  · rw [h2] at k2
    simp at k2
  · rw [h3] at k3
    exact Bool.noConfusion k3
  · rw [h4] at k4
    exact Bool.noConfusion k4
  · rw [h5] at k5
    exact Bool.noConfusion k5
  · rw [h6] at k6
    exact Bool.noConfusion k6
  · simp [hcvs, hb1, hb2, hb3, hb4, List.filterMap_append, List.filterMap_cons]
  · simp [hcvs, hb1, hb2, hb3, hb4, List.filterMap_append, List.filterMap_cons]

theorem frame_presentIdxs_of_no_reach (d : RenderData) (bs : List EngineBehavior)
    (st : RState) (i : Nat) (h : reachesPresent (bs.getD i default) = false) :
    presentIdxs (paintFrameForEngine d bs st i).1 = [] := by
  have hcvs := filterMapPresent_pairs_nil (checkViewportAndScroll d bs.length st).1
    (checkViewportAndScroll_nonMarker d bs.length st)
  revert h
  unfold presentIdxs
  unfold paintFrameForEngine
  generalize List.getD bs i default = b
  intro h
  have hb1 := filterMapPresent_single_nil i (paintBufferOutputCalls d b)
    (paintBufferOutputCalls_nonMarker d b)
  have hb2 := filterMapPresent_single_nil i (paintImeCompositionCalls d b)
    (paintImeCompositionCalls_nonMarker d b)
  have hb3 := filterMapPresent_single_nil i (paintSelectionCalls d b)
    (paintSelectionCalls_nonMarker d b)
  have hb4 := filterMapPresent_single_nil i (paintCursorCalls d)
    (paintCursorCalls_nonMarker d)
  split_ifs with h1 h2 h3 h4 h5 h6 h7
  · simp [hcvs, hb1, hb2, hb3, hb4, List.filterMap_append, List.filterMap_cons]
  · simp [hcvs, hb1, hb2, hb3, hb4, List.filterMap_append, List.filterMap_cons]
  · simp [hcvs, hb1, hb2, hb3, hb4, List.filterMap_append, List.filterMap_cons]
  · simp [hcvs, hb1, hb2, hb3, hb4, List.filterMap_append, List.filterMap_cons]
  · simp [hcvs, hb1, hb2, hb3, hb4, List.filterMap_append, List.filterMap_cons]
  · simp [hcvs, hb1, hb2, hb3, hb4, List.filterMap_append, List.filterMap_cons]
  all_goals
    have k1 : SUCCEEDED b.startPaint = true := by simpa using h1
    have k2 : (b.startPaint == S_FALSE) = false := by
      simpa [beq_eq_false_iff_ne] using h2
    have k3 : SUCCEEDED b.updateBrushes = true := by simpa using h3
    have k4 : SUCCEEDED b.scrollFrame = true := by simpa using h4
    have k5 : SUCCEEDED b.paintBackground = true := by simpa using h5
    have k6 : SUCCEEDED b.updateTitle = true := by simpa using h6
    have hr : reachesPresent b = true := by
      simp [reachesPresent, k1, k2, k3, k4, k5, k6]
    rw [hr] at h
    exact Bool.noConfusion h

theorem frame_prepareIdxs (d : RenderData) (bs : List EngineBehavior) (st : RState) (i : Nat) :
    prepareIdxs (paintFrameForEngine d bs st i).1 = [] := by
  have hcvs := filterMapPrepare_pairs_nil (checkViewportAndScroll d bs.length st).1
    (checkViewportAndScroll_nonMarker d bs.length st)
  unfold prepareIdxs
  unfold paintFrameForEngine
  generalize List.getD bs i default = b
  have hb1 := filterMapPrepare_single_nil i (paintBufferOutputCalls d b)
    (paintBufferOutputCalls_nonMarker d b)
  have hb2 := filterMapPrepare_single_nil i (paintImeCompositionCalls d b)
    (paintImeCompositionCalls_nonMarker d b)
  have hb3 := filterMapPrepare_single_nil i (paintSelectionCalls d b)
    (paintSelectionCalls_nonMarker d b)
  have hb4 := filterMapPrepare_single_nil i (paintCursorCalls d)
    (paintCursorCalls_nonMarker d)
  split_ifs <;>
    simp [hcvs, hb1, hb2, hb3, hb4, List.filterMap_append, List.filterMap_cons]

theorem startIdxs_append (l1 l2 : List Ev) :
    startIdxs (l1 ++ l2) = startIdxs l1 ++ startIdxs l2 := List.filterMap_append l1 l2 _

theorem presentIdxs_append (l1 l2 : List Ev) :
    presentIdxs (l1 ++ l2) = presentIdxs l1 ++ presentIdxs l2 := List.filterMap_append l1 l2 _

theorem prepareIdxs_append (l1 l2 : List Ev) :
    prepareIdxs (l1 ++ l2) = prepareIdxs l1 ++ prepareIdxs l2 := List.filterMap_append l1 l2 _

theorem paintFrameLoop_startIdxs (d : RenderData) (bs : List EngineBehavior) :
    ∀ k i st, startIdxs (paintFrameLoop d bs k i st).1 = List.range' i k := by
  intro k
  induction k with
  | zero => intro i st; rfl
  | succ k ih =>
    intro i st
    show startIdxs ((paintFrameForEngine d bs st i).1 ++
        (paintFrameLoop d bs k (i + 1) (paintFrameForEngine d bs st i).2.2).1) =
      List.range' i (k + 1)
    rw [startIdxs_append, frame_startIdxs, ih, List.range'_succ]
    rfl

theorem paintFrameLoop_presentIdxs (d : RenderData) (bs : List EngineBehavior) :
    ∀ k i st, presentIdxs (paintFrameLoop d bs k i st).1 =
      (List.range' i k).filter (fun j => reachesPresent (bs.getD j default)) := by
  intro k
  induction k with
  | zero => intro i st; rfl
  | succ k ih =>
    intro i st
    show presentIdxs ((paintFrameForEngine d bs st i).1 ++
        (paintFrameLoop d bs k (i + 1) (paintFrameForEngine d bs st i).2.2).1) = _
    rw [presentIdxs_append, ih, List.range'_succ]
    by_cases hr : reachesPresent (bs.getD i default) = true
    · rw [frame_presentIdxs_of_reaches d bs st i hr]
      rw [List.getD_eq_getElem?_getD] at hr
      simp [List.filter_cons, hr, List.getD_eq_getElem?_getD]
    · rw [frame_presentIdxs_of_no_reach d bs st i (by revert hr; simp)]
      rw [List.getD_eq_getElem?_getD] at hr
      simp [List.filter_cons, hr, List.getD_eq_getElem?_getD]

/-- C5: the paint-all entry point runs the per-engine frame procedure for
every attached engine in order (exactly one begin-frame per engine, in
engine order), and failures — a begin-frame failure included — are only
logged: whatever any engine's outcomes, exactly the engines whose own
outcomes let their frame reach presentation present exactly once, so one
engine's failure never prevents another engine's frame from running to
completion in the same paint-all call. -/
theorem paintFrame_engine_isolation (d : RenderData) (bs : List EngineBehavior) (st : RState) :
    startIdxs (paintFrame d bs st).1 = List.range bs.length ∧
    presentIdxs (paintFrame d bs st).1 =
      (List.range bs.length).filter (fun j => reachesPresent (bs.getD j default)) := by
  constructor
  · rw [List.range_eq_range']
    exact paintFrameLoop_startIdxs d bs bs.length 0 st
  · rw [List.range_eq_range']
    exact paintFrameLoop_presentIdxs d bs bs.length 0 st

theorem teardownLoop_prepareIdxs (d : RenderData) (bs : List EngineBehavior) :
    ∀ k i st, prepareIdxs (teardownLoop d bs k i st).1 = List.range' i k := by
  intro k
  induction k with
  | zero => intro i st; rfl
  | succ k ih =>
    intro i st
    unfold teardownLoop
    by_cases hb : (SUCCEEDED (bs.getD i default).prepareTeardown &&
        (bs.getD i default).prepareWantsRepaint) = true
    · rw [if_pos hb]
      show prepareIdxs (Ev.call i ECall.prepareForTeardown ::
          (paintFrameForEngine d bs st i).1 ++
          (teardownLoop d bs k (i + 1) (paintFrameForEngine d bs st i).2.2).1) =
        List.range' i (k + 1)
      have hcons : ∀ l : List Ev,
          prepareIdxs (Ev.call i ECall.prepareForTeardown :: l) = i :: prepareIdxs l :=
        fun l => rfl
      rw [List.cons_append, hcons, prepareIdxs_append, frame_prepareIdxs, ih,
        List.range'_succ]
      rfl
    · rw [if_neg hb]
      show prepareIdxs (Ev.call i ECall.prepareForTeardown ::
          (teardownLoop d bs k (i + 1) st).1) = List.range' i (k + 1)
      have hcons : ∀ l : List Ev,
          prepareIdxs (Ev.call i ECall.prepareForTeardown :: l) = i :: prepareIdxs l :=
        fun l => rfl
      rw [hcons, ih, List.range'_succ]

theorem teardownLoop_startIdxs (d : RenderData) (bs : List EngineBehavior) :
    ∀ k i st, startIdxs (teardownLoop d bs k i st).1 =
      (List.range' i k).filter
        (fun j => SUCCEEDED (bs.getD j default).prepareTeardown &&
                  (bs.getD j default).prepareWantsRepaint) := by
  intro k
  induction k with
  | zero => intro i st; rfl
  | succ k ih =>
    intro i st
    unfold teardownLoop
    by_cases hb : (SUCCEEDED (bs.getD i default).prepareTeardown &&
        (bs.getD i default).prepareWantsRepaint) = true
    · rw [if_pos hb]
      show startIdxs (Ev.call i ECall.prepareForTeardown ::
          (paintFrameForEngine d bs st i).1 ++
          (teardownLoop d bs k (i + 1) (paintFrameForEngine d bs st i).2.2).1) = _
      have hcons : ∀ l : List Ev,
          startIdxs (Ev.call i ECall.prepareForTeardown :: l) = startIdxs l :=
        fun l => rfl
      rw [List.cons_append, hcons, startIdxs_append, frame_startIdxs, ih,
        List.range'_succ, List.filter_cons]
      rw [List.getD_eq_getElem?_getD] at hb
      simp [hb, List.getD_eq_getElem?_getD]
    · rw [if_neg hb]
      show startIdxs (Ev.call i ECall.prepareForTeardown ::
          (teardownLoop d bs k (i + 1) st).1) = _
      have hcons : ∀ l : List Ev,
          startIdxs (Ev.call i ECall.prepareForTeardown :: l) = startIdxs l :=
        fun l => rfl
      rw [hcons, ih, List.range'_succ, List.filter_cons]
      rw [List.getD_eq_getElem?_getD] at hb
      simp [hb, List.getD_eq_getElem?_getD]

/-- C7: after TriggerTeardown returns, the paint scheduler has been forced
to Disabled, every attached engine has received exactly one
prepare-for-teardown call (in engine order), and exactly the engines whose
prepare call succeeded and answered that they want a final repaint have had
exactly one additional frame run for them on the calling thread (one
begin-frame each); the rest get no extra frame. -/
theorem triggerTeardown_deterministic (d : RenderData) (bs : List EngineBehavior)
    (st : RState) (s : SchedState) :
    (triggerTeardown d bs st s).2.2 = SchedState.disabled ∧
    prepareIdxs (triggerTeardown d bs st s).1 = List.range bs.length ∧
    startIdxs (triggerTeardown d bs st s).1 =
      (List.range bs.length).filter
        (fun j => SUCCEEDED (bs.getD j default).prepareTeardown &&
                  (bs.getD j default).prepareWantsRepaint) := by
  refine ⟨rfl, ?_, ?_⟩
  · rw [List.range_eq_range']
    exact teardownLoop_prepareIdxs d bs bs.length 0 st
  · rw [List.range_eq_range']
    exact teardownLoop_startIdxs d bs bs.length 0 st

/-- C6: in every execution of the per-engine frame procedure that reaches
presentation, the shared content lock is acquired first, every other event —
all draw calls and the end-frame call included — happens strictly between
the lock acquisition and the release, and the present call is made only
after the release: the trace is lock, then a present-free and lock-free
middle containing end-frame, then unlock, then present. -/
theorem paintFrameForEngine_present_outside_lock (d : RenderData)
    (bs : List EngineBehavior) (st : RState) (i : Nat)
    (h : reachesPresent (bs.getD i default) = true) :
    ∃ mid, (paintFrameForEngine d bs st i).1 =
        Ev.lock :: mid ++ [Ev.unlock, Ev.call i ECall.present] ∧
      Ev.lock ∉ mid ∧ Ev.unlock ∉ mid ∧ (∀ j, Ev.call j ECall.present ∉ mid) ∧
      Ev.call i ECall.endPaint ∈ mid := by
  simp only [reachesPresent, Bool.and_eq_true, Bool.not_eq_true'] at h
  obtain ⟨⟨⟨⟨⟨k1, k2⟩, k3⟩, k4⟩, k5⟩, k6⟩ := h
  have n1 : ¬ (SUCCEEDED (bs.getD i default).startPaint = false) := by
    intro he
    rw [k1] at he
    exact Bool.noConfusion he
  have n2 : ¬ ((bs.getD i default).startPaint = S_FALSE) := by
    intro he
    rw [he] at k2
    simp at k2
  have n3 : ¬ (SUCCEEDED (bs.getD i default).updateBrushes = false) := by
    intro he
    rw [k3] at he
    exact Bool.noConfusion he
  have n4 : ¬ (SUCCEEDED (bs.getD i default).scrollFrame = false) := by
    intro he
    rw [k4] at he
    exact Bool.noConfusion he
  have n5 : ¬ (SUCCEEDED (bs.getD i default).paintBackground = false) := by
    intro he
    rw [k5] at he
    exact Bool.noConfusion he
  have n6 : ¬ (SUCCEEDED (bs.getD i default).updateTitle = false) := by
    intro he
    rw [k6] at he
    exact Bool.noConfusion he
  refine ⟨(checkViewportAndScroll d bs.length st).1.map (fun p => Ev.call p.1 p.2) ++
      [Ev.call i ECall.startPaint, Ev.call i (ECall.updateBrushes d.defaultAttr true),
       Ev.call i ECall.scrollFrame, Ev.call i ECall.paintBackground] ++
      ((paintBufferOutputCalls d (bs.getD i default) ++
        paintImeCompositionCalls d (bs.getD i default) ++
        paintSelectionCalls d (bs.getD i default) ++
        paintCursorCalls d).map (Ev.call i)) ++
      [Ev.call i ECall.updateTitle, Ev.call i ECall.endPaint], ?_, ?_, ?_, ?_, ?_⟩
  · unfold paintFrameForEngine
    rw [if_neg n1, if_neg n2, if_neg n3, if_neg n4, if_neg n5, if_neg n6]
    simp [List.append_assoc]
  · intro hmem
    simp at hmem
  · intro hmem
    simp at hmem
  · intro j hmem
    simp only [List.mem_append, List.mem_map, List.mem_cons, List.mem_singleton,
      List.not_mem_nil, or_false] at hmem
    rcases hmem with ((hc | hc) | hc) | hc
    · obtain ⟨q, hq, he⟩ := hc
      have hnm := checkViewportAndScroll_nonMarker d bs.length st q hq
      injection he with he1 he2
      rw [he2] at hnm
      exact Bool.noConfusion hnm
    · rcases hc with hc | hc | hc | hc <;> exact Ev.noConfusion hc (fun _ hec => ECall.noConfusion hec)
    · obtain ⟨x, hx, he⟩ := hc
      injection he with he1 he2
      have hnm : nonMarker x = true := by
        rcases hx with ((h1 | h1) | h1) | h1
        · exact paintBufferOutputCalls_nonMarker d _ x h1
        · exact paintImeCompositionCalls_nonMarker d _ x h1
        · exact paintSelectionCalls_nonMarker d _ x h1
        · exact paintCursorCalls_nonMarker d x h1
      rw [he2] at hnm
      exact Bool.noConfusion hnm
    · rcases hc with hc | hc <;> exact Ev.noConfusion hc (fun _ hec => ECall.noConfusion hec)
  · simp


/-- An engine whose every frame call succeeds and which asks for a final
repaint at teardown. -/
def engineOkBehavior : EngineBehavior where
  dirtyRect := ⟨0, 0, 0, 0⟩
  startPaint := S_OK
  updateBrushes := S_OK
  scrollFrame := S_OK
  paintBackground := S_OK
  updateTitle := S_OK
  present := S_OK
  prepareTeardown := S_OK
  prepareWantsRepaint := true

/-- C6, witness: one all-succeeding engine painting the sample data — its
frame trace is lock, a marker-free middle with the end-frame call, unlock,
then present. -/
theorem paintFrameForEngine_present_outside_lock_witness :
    reachesPresent (([engineOkBehavior] : List EngineBehavior).getD 0 default) = true ∧
    (∃ mid, (paintFrameForEngine sampleData [engineOkBehavior] sampleState 0).1 =
        Ev.lock :: mid ++ [Ev.unlock, Ev.call 0 ECall.present] ∧
      Ev.lock ∉ mid ∧ Ev.unlock ∉ mid ∧ (∀ j, Ev.call j ECall.present ∉ mid) ∧
      Ev.call 0 ECall.endPaint ∈ mid) :=
  ⟨by decide, paintFrameForEngine_present_outside_lock sampleData [engineOkBehavior]
      sampleState 0 (by decide)⟩

end ConsoleRender
